import Mathlib

/-!
Verification of `zootopia.py`: a shallow embedding of the animal-data
pipeline (load JSON → normalize records → render HTML cards → substitute
into a template → persist), together with theorems settling the stated
properties of `format_value`, `create_template_dict`,
`return_list_for_template`, `create_updated_html` and
`persist_updated_html`.

Modelling conventions:
* JSON values are the inductive `JsonVal`; Python dicts are association
  lists (`List (String × JsonVal)`), JSON numbers are modelled as `Int`
  (the data contains no floats).
* File I/O is explicit: a file's content is `Option String`
  (`none` = the file is absent / unreadable), and `json.load` — an
  external library call — is an explicit `parse` parameter.
* A Python function that can raise an uncaught exception is modelled as
  returning `Option`/`none` for the raising case; a function that catches
  all its exceptions returns its Python value directly.
* Character case operations (`str.lower`, `str.title`) are modelled with
  Python's full per-character case mappings (a character maps to a
  string): exactly on the ASCII + U+2019 alphabet the program's data
  manipulates (where every mapping is single-character and U+2019 is
  uncased, as in Python), and exactly on the multi-character mapping
  witnesses U+00DF ß (titlecase "Ss"), U+0130 İ (lowercase "i" + U+0307)
  and the uncased combining dot U+0307.  Other non-ASCII cased
  characters are modelled as uncased identity; no theorem quantifies
  over them — the universally quantified casing claims are restricted to
  `isSupportedChar` strings, and the remaining inputs appear only in
  concrete counterexamples drawn from the modelled witnesses.
-/

/-- A JSON value as produced by `json.load`. -/
inductive JsonVal where
  | null : JsonVal
  | bool : Bool → JsonVal
  | num : Int → JsonVal
  | str : String → JsonVal
  | list : List JsonVal → JsonVal
  | dict : List (String × JsonVal) → JsonVal

/-- Python `d.get(k)`: the value bound to the first matching key, if any. -/
def dictGet (d : List (String × JsonVal)) (k : String) : Option JsonVal :=
  (d.find? (fun kv => kv.1 == k)).map (fun kv => kv.2)

/-- The single-character (ASCII) restriction of Python's lowercase
mapping; on the supported alphabet it coincides with the full mapping
and is used as a one-pass proof device. -/
def pyLowerChar (c : Char) : Char :=
  if 65 ≤ c.toNat ∧ c.toNat ≤ 90 then Char.ofNat (c.toNat + 32) else c

/-- The single-character (ASCII) restriction of Python's
titlecase/uppercase mapping; on the supported alphabet it coincides
with the full mapping and is used as a one-pass proof device. -/
def pyUpperChar (c : Char) : Char :=
  if 97 ≤ c.toNat ∧ c.toNat ≤ 122 then Char.ofNat (c.toNat - 32) else c

/-- Python `str.isCased` property, deciding the word-boundary state of
`str.title`: ASCII letters, plus the modelled non-ASCII cased letters
U+00DF (ß, lowercase) and U+0130 (İ, uppercase).  The combining dot
U+0307 produced by lowercasing İ is uncased — this is what re-breaks a
word inside `title` output. -/
def pyIsCased (c : Char) : Bool :=
  if (65 ≤ c.toNat ∧ c.toNat ≤ 90) ∨ (97 ≤ c.toNat ∧ c.toNat ≤ 122)
      ∨ c.toNat = 223 ∨ c.toNat = 304 then true else false

/-- Python's full lowercase mapping of one character (a string):
`'İ'.lower()` is the two-character `"i" + U+0307`; ASCII uppercase maps
down; the other modelled characters (ASCII, U+2019, ß, U+0307) map to
themselves, as in Python. -/
def pyLowerCharF (c : Char) : List Char :=
  if c.toNat = 304 then ['i', Char.ofNat 775] else [pyLowerChar c]

/-- Python's full titlecase mapping of one character (a string):
`'ß'.title()` starts a word as the two-character `"Ss"`; ASCII
lowercase maps up; the other modelled characters map to themselves, as
in Python. -/
def pyTitleCharF (c : Char) : List Char :=
  if c.toNat = 223 then ['S', 's'] else [pyUpperChar c]

/-- The alphabet on which the embedding of Python's case mappings is
exact and single-character: ASCII plus the right single quotation mark
U+2019.  This is the entire alphabet handled by the program's data and
template. -/
def isSupportedChar (c : Char) : Bool :=
  if c.toNat ≤ 127 ∨ c.toNat = 8217 then true else false

/-- Concatenation of the per-character mapping results. -/
def concatAll : List (List Char) → List Char
  | [] => []
  | x :: xs => x ++ concatAll xs

/-- Python `str.lower`: the concatenated full lowercase mappings of the
characters. -/
def pyLowerStr (s : String) : String :=
  ⟨concatAll (s.toList.map pyLowerCharF)⟩

/-- The state machine of CPython's `str.title` (`do_title`): a
character after a cased character receives the full lowercase mapping,
a character after a non-cased character (a word start) receives the
full titlecase mapping, and the boolean state is the cased property of
the original character just consumed. -/
def titleAux : Bool → List Char → List Char
  | _, [] => []
  | prevCased, c :: rest =>
    (if prevCased then pyLowerCharF c else pyTitleCharF c) ++ titleAux (pyIsCased c) rest

/-- Python `str.title`. -/
def pyTitleStr (s : String) : String :=
  ⟨titleAux false s.toList⟩

/-- The single-character restriction of the `str.title` state machine:
on the supported alphabet every mapping is one character and every
cased character is an ASCII letter, so `titleAux` collapses to this
one-character-per-character pass (proved in `titleAux_eq_simple`). -/
def titleAuxSimple : Bool → List Char → List Char
  | _, [] => []
  | prevCased, c :: rest =>
    if pyIsCased c then
      (if prevCased then pyLowerChar c else pyUpperChar c) :: titleAuxSimple true rest
    else
      c :: titleAuxSimple false rest

/-- Python `str.replace` scanner: replace each left-to-right
non-overlapping occurrence of `pat` by `new`.  The `fuel` argument makes
the recursion structural; every call site passes `fuel ≥ length` of the
scanned list, which makes the fuel-exhaustion clause unreachable. -/
def replaceFuel (pat new : List Char) : Nat → List Char → List Char
  | _, [] => []
  | 0, s => s
  | fuel + 1, c :: rest =>
    if pat.isPrefixOf (c :: rest) then
      new ++ replaceFuel pat new fuel (List.drop (pat.length - 1) rest)
    else
      c :: replaceFuel pat new fuel rest

/-- Python `s.replace(pat, new)` for a non-empty pattern (both patterns
used by the program — `"’S"` and the HTML placeholder — are non-empty). -/
def pyReplace (s pat new : String) : String :=
  ⟨replaceFuel pat.toList new.toList s.toList.length s.toList⟩

/-- Python `sub in s`: `sub` occurs contiguously in `s`. -/
def strContains (s sub : String) : Bool :=
  s.toList.tails.any (fun t => sub.toList.isPrefixOf t)

/-- Module constant `DEFAULT_NA_VALUE` of `zootopia.py`. -/
def DEFAULT_NA_VALUE : String := "N/A"

/-- Module constant `HTML_PLACEHOLDER_TEXT` of `zootopia.py`. -/
def HTML_PLACEHOLDER_TEXT : String := "__REPLACE_ANIMALS_INFO__"

/-- The string branch of `format_value`: unless the value
case-insensitively equals the sentinel, title-case it and then replace
every `"’S"` (U+2019 followed by uppercase S) by `"’s"`. -/
def format_value_str (value_str : String) : String :=
  if pyLowerStr value_str ≠ pyLowerStr DEFAULT_NA_VALUE then
    pyReplace (pyTitleStr value_str) "’S" "’s"
  else
    value_str

/-- `format_value` of `zootopia.py`: format a string value; return any
non-string value unchanged (the `isinstance(value_str, str)` check). -/
def format_value : JsonVal → JsonVal
  | .str s => .str (format_value_str s)
  | v => v

/-- The ASCII apostrophe U+0027 (kept out of string literals). -/
def asciiApos : Char := Char.ofNat 39

example : format_value_str ("darwin" ++ String.mk [asciiApos] ++ "s fox")
    = "Darwin" ++ String.mk [asciiApos, 'S'] ++ " Fox" := by decide
example : format_value_str "darwin’s fox" = "Darwin’s Fox" := by decide
example : format_value_str "n/a" = "n/a" := by decide
example : format_value_str "N/A" = "N/A" := by decide
example : format_value_str "" = "" := by decide
example : format_value_str "fox" = "Fox" := by decide

/-- The normalized record built by `create_template_dict`: the dict with
keys `"name"`, `"diet"`, `"location"`, `"type"`. -/
structure AnimalDict where
  name : JsonVal
  diet : JsonVal
  location : JsonVal
  type : JsonVal

/-- Python `repr` for the JSON value types, as used by `str()` on
containers (string escaping and quote selection are simplified: a string
is always rendered between two U+0027 quotes). -/
def pyRepr : JsonVal → String
  | .null => "None"
  | .bool b => if b then "True" else "False"
  | .num n => toString n
  | .str s => String.mk [asciiApos] ++ s ++ String.mk [asciiApos]
  | .list xs =>
    "[" ++ String.intercalate ", " (xs.attach.map (fun x => pyRepr x.1)) ++ "]"
  | .dict kvs =>
    "\x7b" ++ String.intercalate ", "
      (kvs.attach.map (fun kv =>
        String.mk [asciiApos] ++ kv.1.1 ++ String.mk [asciiApos] ++ ": " ++ pyRepr kv.1.2))
      ++ "\x7d"
decreasing_by
  · have h1 := List.sizeOf_lt_of_mem x.2
    simp only [JsonVal.list.sizeOf_spec]
    omega
  · have h1 := List.sizeOf_lt_of_mem kv.2
    have h2 : sizeOf kv.1.2 < sizeOf kv.1 := by
      obtain ⟨a, b⟩ := kv.1
      simp only [Prod.mk.sizeOf_spec]
      omega
    simp only [JsonVal.dict.sizeOf_spec]
    omega

/-- Python `str()` as applied by the card f-string to each field: a
string converts to itself, everything else to its `repr`. -/
def pyStr : JsonVal → String
  | .str s => s
  | v => pyRepr v

/-- `create_template_dict` of `zootopia.py`.  `name` defaults to the
sentinel via `.get("name", DEFAULT_NA_VALUE)`; `location` is
`locations[0]` when `locations_list and isinstance(locations_list, list)`
holds — i.e. exactly when the field is a non-empty JSON list — and the
sentinel otherwise; `diet`/`type` come from the unchecked subscript
`animal_data["characteristics"]` followed by `.get`, so a record whose
`"characteristics"` key is absent raises `KeyError` (and a non-dict value
there raises `AttributeError` on `.get`), modelled by `none`. -/
def create_template_dict (animal_data : List (String × JsonVal)) : Option AnimalDict :=
  let animal_name := (dictGet animal_data "name").getD (.str DEFAULT_NA_VALUE)
  let animal_location :=
    match dictGet animal_data "locations" with
    | some (.list (x :: _)) => x
    | _ => JsonVal.str DEFAULT_NA_VALUE
  match dictGet animal_data "characteristics" with
  | some (.dict characteristics) =>
    let animal_diet := (dictGet characteristics "diet").getD (.str DEFAULT_NA_VALUE)
    let animal_type := (dictGet characteristics "type").getD (.str DEFAULT_NA_VALUE)
    some {
      name := format_value animal_name
      diet := format_value animal_diet
      location := format_value animal_location
      type := format_value animal_type
    }
  | some _ => none
  | none => none

/-- `load_json` of `zootopia.py`.  The file content is `none` when the
file is absent (`FileNotFoundError`); `parse` is the external
`json.load`, returning `none` on `JSONDecodeError`.  Both handlers print
a diagnostic and return `None`, so the function never propagates an
exception. -/
def load_json (parse : String → Option JsonVal) (fileContent : Option String) :
    Option JsonVal :=
  match fileContent with
  | none => none
  | some content => parse content

/-- Python iteration `for x in data`: lists yield their elements, dicts
their keys, strings their characters; other values raise `TypeError`
(`none`). -/
def pyIterate : JsonVal → Option (List JsonVal)
  | .list xs => some xs
  | .dict kvs => some (kvs.map (fun kv => JsonVal.str kv.1))
  | .str s => some (s.toList.map (fun c => JsonVal.str (String.mk [c])))
  | _ => none

/-- `return_list_for_template` of `zootopia.py`: an empty list when the
loader reported no data, otherwise one normalized record per iterated
element.  An element that is not a dict makes `create_template_dict`
raise (its first `.get` is an `AttributeError`), modelled by `none`. -/
def return_list_for_template (parse : String → Option JsonVal)
    (fileContent : Option String) : Option (List AnimalDict) :=
  match load_json parse fileContent with
  | none => some []
  | some data =>
    match pyIterate data with
    | none => none
    | some items =>
      items.mapM (fun animal =>
        match animal with
        | .dict d => create_template_dict d
        | _ => none)

/-- One `<li>` card of `create_str_for_template`, embedding the four
formatted fields. -/
def animal_card (animal : AnimalDict) : String :=
  "<li class=\"cards__item\">" ++
  "<div class=\"card__title\">" ++ pyStr animal.name ++ "</div>" ++
  "<p class=\"card__text\">" ++
  "<strong>Diet:</strong> " ++ pyStr animal.diet ++ "<br/>" ++
  "<strong>Location:</strong> " ++ pyStr animal.location ++ "<br/>" ++
  "<strong>Type:</strong> " ++ pyStr animal.type ++ "<br/>" ++
  "</p>" ++
  "</li>"

/-- `create_str_for_template` of `zootopia.py`: the cards joined with a
blank line.  `none` propagates an exception raised while normalizing. -/
def create_str_for_template (parse : String → Option JsonVal)
    (fileContent : Option String) : Option String :=
  match return_list_for_template parse fileContent with
  | none => none
  | some animals_list =>
    some (String.intercalate "\n\n" (animals_list.map animal_card))

/-- `create_updated_html` of `zootopia.py`.  `templateContent` is the
result of `load_html` (`none` on a read failure, which makes the
function print a diagnostic and return `""`).  Otherwise the replacement
string is built first — an exception there propagates (`none`) — and the
placeholder, when present, is substituted by Python `str.replace`; when
absent the initial `updated_html_str = ""` is returned. -/
def create_updated_html (parse : String → Option JsonVal)
    (dataContent : Option String) (templateContent : Option String) :
    Option String :=
  match templateContent with
  | none => some ""
  | some html_template =>
    match create_str_for_template parse dataContent with
    | none => none
    | some replacement_str =>
      some (if strContains html_template HTML_PLACEHOLDER_TEXT then
              pyReplace html_template HTML_PLACEHOLDER_TEXT replacement_str
            else "")

/-- Diagnostic printed by `persist_updated_html` for empty input. -/
def NO_CONTENT_MSG : String :=
  "No HTML content provided to persist. File will not be written."

/-- Diagnostic printed by `persist_updated_html` on success. -/
def SAVE_SUCCESS_MSG : String :=
  "Successfully saved updated HTML to animals.html"

/-- Diagnostic printed by `persist_updated_html` on an `IOError` (the
appended exception text is environment data and is not modelled). -/
def WRITE_ERROR_MSG : String :=
  "Error: Could not write to file at animals.html."

/-- Observable outcome of `persist_updated_html`: what was written to
the output file (if anything), what was printed, and the returned
boolean. -/
structure PersistResult where
  wrote : Option String
  printed : List String
  ret : Bool
deriving DecidableEq

/-- `persist_updated_html` of `zootopia.py`.  Python `if not
updated_html_str` is the empty-string test; `writeOk` states whether the
`open`/`write` at the default output path succeeds (`IOError`
otherwise, which is caught). -/
def persist_updated_html (updated_html_str : String) (writeOk : Bool) : PersistResult :=
  if updated_html_str = "" then
    { wrote := none, printed := [NO_CONTENT_MSG], ret := false }
  else if writeOk then
    { wrote := some updated_html_str, printed := [SAVE_SUCCESS_MSG], ret := true }
  else
    { wrote := none, printed := [WRITE_ERROR_MSG], ret := false }

/-- Modelled from the spec (§4.2, rule 1): `name` ← record field
`name`, default sentinel if absent. -/
def spec_name (animal_data : List (String × JsonVal)) : JsonVal :=
  (dictGet animal_data "name").getD (.str DEFAULT_NA_VALUE)

/-- Modelled from the spec (§4.2, rule 2): `location` ← first element of
`locations` if that field is present and is a non-empty sequence;
otherwise sentinel. -/
def spec_location (animal_data : List (String × JsonVal)) : JsonVal :=
  match dictGet animal_data "locations" with
  | some (.list xs) =>
    match xs with
    | [] => JsonVal.str DEFAULT_NA_VALUE
    | x :: _ => x
  | _ => JsonVal.str DEFAULT_NA_VALUE

/-- Modelled from the spec (§4.2, rule 3): `diet` ←
`characteristics.diet`, default sentinel if absent. -/
def spec_diet (characteristics : List (String × JsonVal)) : JsonVal :=
  (dictGet characteristics "diet").getD (.str DEFAULT_NA_VALUE)

/-- Modelled from the spec (§4.2, rule 4): `type` ←
`characteristics.type`, default sentinel if absent. -/
def spec_type (characteristics : List (String × JsonVal)) : JsonVal :=
  (dictGet characteristics "type").getD (.str DEFAULT_NA_VALUE)

/-- A one-pass reformulation of `title().replace("’S", "’s")`: the
character at a position is replaced by `'s'` exactly when it is `'S'`
and the previous (original) character is U+2019.  Used as a proof
device; `replaceFuel_eq_fixApos` shows it agrees with the scanner. -/
def fixApos : Option Char → List Char → List Char
  | _, [] => []
  | prev, c :: rest =>
    (if prev = some '’' ∧ c = 'S' then 's' else c) :: fixApos (some c) rest

theorem char_toNat_ofNat {n : Nat} (h : n < 55296) : (Char.ofNat n).toNat = n := by
  have hv : n.isValidChar := Or.inl h
  rw [Char.ofNat, dif_pos hv]
  rfl

theorem char_eq_of_toNat_eq {a b : Char} (h : a.toNat = b.toNat) : a = b := by
  have h2 := congrArg Char.ofNat h
  rwa [Char.ofNat_toNat, Char.ofNat_toNat] at h2

theorem pyLowerChar_toNat (c : Char) :
    (pyLowerChar c).toNat =
      if 65 ≤ c.toNat ∧ c.toNat ≤ 90 then c.toNat + 32 else c.toNat := by
  by_cases h : 65 ≤ c.toNat ∧ c.toNat ≤ 90
  · simp only [pyLowerChar, if_pos h]
    exact char_toNat_ofNat (by omega)
  · simp only [pyLowerChar, if_neg h]

theorem pyUpperChar_toNat (c : Char) :
    (pyUpperChar c).toNat =
      if 97 ≤ c.toNat ∧ c.toNat ≤ 122 then c.toNat - 32 else c.toNat := by
  by_cases h : 97 ≤ c.toNat ∧ c.toNat ≤ 122
  · simp only [pyUpperChar, if_pos h]
    exact char_toNat_ofNat (by omega)
  · simp only [pyUpperChar, if_neg h]

theorem pyIsCased_toNat (c : Char) :
    pyIsCased c =
      if (65 ≤ c.toNat ∧ c.toNat ≤ 90) ∨ (97 ≤ c.toNat ∧ c.toNat ≤ 122)
          ∨ c.toNat = 223 ∨ c.toNat = 304 then true
      else false := rfl

theorem pyLowerChar_pyLowerChar (c : Char) :
    pyLowerChar (pyLowerChar c) = pyLowerChar c := by
  apply char_eq_of_toNat_eq
  have h1 := pyLowerChar_toNat c
  have h2 := pyLowerChar_toNat (pyLowerChar c)
  rw [h1] at h2
  rw [h2, h1]
  split_ifs <;> omega

theorem pyLowerChar_pyUpperChar (c : Char) :
    pyLowerChar (pyUpperChar c) = pyLowerChar c := by
  apply char_eq_of_toNat_eq
  have h1 := pyUpperChar_toNat c
  have h2 := pyLowerChar_toNat (pyUpperChar c)
  have h3 := pyLowerChar_toNat c
  rw [h1] at h2
  rw [h2, h3]
  split_ifs <;> omega

theorem pyUpperChar_pyUpperChar (c : Char) :
    pyUpperChar (pyUpperChar c) = pyUpperChar c := by
  apply char_eq_of_toNat_eq
  have h1 := pyUpperChar_toNat c
  have h2 := pyUpperChar_toNat (pyUpperChar c)
  rw [h1] at h2
  rw [h2, h1]
  split_ifs <;> omega

theorem pyLowerChar_toNat_inj {a b : Char}
    (h : pyLowerChar a = pyLowerChar b) :
    (if 65 ≤ a.toNat ∧ a.toNat ≤ 90 then a.toNat + 32 else a.toNat) =
      (if 65 ≤ b.toNat ∧ b.toNat ≤ 90 then b.toNat + 32 else b.toNat) := by
  have ha := pyLowerChar_toNat a
  have hb := pyLowerChar_toNat b
  rw [← ha, ← hb, h]

theorem pyUpperChar_congr {a b : Char} (h : pyLowerChar a = pyLowerChar b) :
    pyUpperChar a = pyUpperChar b := by
  apply char_eq_of_toNat_eq
  have hab := pyLowerChar_toNat_inj h
  rw [pyUpperChar_toNat, pyUpperChar_toNat]
  split_ifs at hab ⊢ <;> omega

theorem pyIsCased_congr {a b : Char} (h : pyLowerChar a = pyLowerChar b) :
    pyIsCased a = pyIsCased b := by
  have hab := pyLowerChar_toNat_inj h
  rw [pyIsCased_toNat, pyIsCased_toNat]
  split_ifs at hab ⊢ <;> first | rfl | omega

theorem eq_of_lower_eq_of_not_cased {a b : Char}
    (h : pyLowerChar a = pyLowerChar b) (hc : pyIsCased a = false) : a = b := by
  have hab := pyLowerChar_toNat_inj h
  have hc2 : ¬ ((65 ≤ a.toNat ∧ a.toNat ≤ 90) ∨ (97 ≤ a.toNat ∧ a.toNat ≤ 122)
      ∨ a.toNat = 223 ∨ a.toNat = 304) := by
    intro hr
    rw [pyIsCased_toNat, if_pos hr] at hc
    exact Bool.true_eq_false.mp hc
  apply char_eq_of_toNat_eq
  split_ifs at hab <;> omega

theorem pyIsCased_pyLowerChar (c : Char) :
    pyIsCased (pyLowerChar c) = pyIsCased c := by
  have h1 := pyLowerChar_toNat c
  rw [pyIsCased_toNat, pyIsCased_toNat, h1]
  split_ifs <;> first | rfl | omega

theorem pyIsCased_pyUpperChar (c : Char) :
    pyIsCased (pyUpperChar c) = pyIsCased c := by
  have h1 := pyUpperChar_toNat c
  rw [pyIsCased_toNat, pyIsCased_toNat, h1]
  split_ifs <;> first | rfl | omega

theorem titleAuxSimple_cons_true {c : Char} (hc : pyIsCased c = true) (rest : List Char) :
    titleAuxSimple true (c :: rest) = pyLowerChar c :: titleAuxSimple true rest := by
  rw [titleAuxSimple, if_pos hc, if_pos rfl]

theorem titleAuxSimple_cons_false {c : Char} (hc : pyIsCased c = true) (rest : List Char) :
    titleAuxSimple false (c :: rest) = pyUpperChar c :: titleAuxSimple true rest := by
  rw [titleAuxSimple, if_pos hc, if_neg (by simp)]

theorem titleAuxSimple_cons_not_cased {c : Char} (hc : ¬ pyIsCased c = true)
    (b : Bool) (rest : List Char) :
    titleAuxSimple b (c :: rest) = c :: titleAuxSimple false rest := by
  rw [titleAuxSimple, if_neg hc]

theorem titleAuxSimple_length (b : Bool) (l : List Char) :
    (titleAuxSimple b l).length = l.length := by
  induction l generalizing b with
  | nil => rfl
  | cons c rest ih =>
    by_cases hc : pyIsCased c = true
    · cases b with
      | true => rw [titleAuxSimple_cons_true hc]; simp [ih]
      | false => rw [titleAuxSimple_cons_false hc]; simp [ih]
    · rw [titleAuxSimple_cons_not_cased hc]; simp [ih]

theorem titleAuxSimple_map_lower (b : Bool) (l : List Char) :
    (titleAuxSimple b l).map pyLowerChar = l.map pyLowerChar := by
  induction l generalizing b with
  | nil => rfl
  | cons c rest ih =>
    by_cases hc : pyIsCased c = true
    · cases b with
      | true =>
        rw [titleAuxSimple_cons_true hc]
        simp [List.map_cons, ih, pyLowerChar_pyLowerChar]
      | false =>
        rw [titleAuxSimple_cons_false hc]
        simp [List.map_cons, ih, pyLowerChar_pyUpperChar]
    · rw [titleAuxSimple_cons_not_cased hc]
      simp [List.map_cons, ih]

theorem titleAuxSimple_congr {x y : List Char}
    (h : x.map pyLowerChar = y.map pyLowerChar) (b : Bool) :
    titleAuxSimple b x = titleAuxSimple b y := by
  induction x generalizing y b with
  | nil =>
    cases y with
    | nil => rfl
    | cons d ys => simp at h
  | cons c xs ih =>
    cases y with
    | nil => simp at h
    | cons d ys =>
      simp only [List.map_cons, List.cons.injEq] at h
      obtain ⟨h1, h2⟩ := h
      have hcd := pyIsCased_congr h1
      by_cases hc : pyIsCased c = true
      · have hd : pyIsCased d = true := hcd.symm.trans hc
        cases b with
        | true =>
          rw [titleAuxSimple_cons_true hc, titleAuxSimple_cons_true hd, h1, ih h2 true]
        | false =>
          rw [titleAuxSimple_cons_false hc, titleAuxSimple_cons_false hd,
            pyUpperChar_congr h1, ih h2 true]
      · have hd : ¬ pyIsCased d = true := by rw [← hcd]; exact hc
        have hc2 : pyIsCased c = false := by
          revert hc; cases pyIsCased c <;> simp
        rw [titleAuxSimple_cons_not_cased hc, titleAuxSimple_cons_not_cased hd,
          eq_of_lower_eq_of_not_cased h1 hc2, ih h2 false]

theorem titleAuxSimple_idem (b : Bool) (l : List Char) :
    titleAuxSimple b (titleAuxSimple b l) = titleAuxSimple b l := by
  induction l generalizing b with
  | nil => rfl
  | cons c rest ih =>
    by_cases hc : pyIsCased c = true
    · cases b with
      | true =>
        rw [titleAuxSimple_cons_true hc,
          titleAuxSimple_cons_true (by rw [pyIsCased_pyLowerChar]; exact hc),
          pyLowerChar_pyLowerChar, ih true]
      | false =>
        rw [titleAuxSimple_cons_false hc,
          titleAuxSimple_cons_false (by rw [pyIsCased_pyUpperChar]; exact hc),
          pyUpperChar_pyUpperChar, ih true]
    · rw [titleAuxSimple_cons_not_cased hc, titleAuxSimple_cons_not_cased hc, ih false]

theorem fixApos_length (p : Option Char) (l : List Char) :
    (fixApos p l).length = l.length := by
  induction l generalizing p with
  | nil => rfl
  | cons c rest ih => simp [fixApos, ih]

theorem fixApos_map_lower (p : Option Char) (l : List Char) :
    (fixApos p l).map pyLowerChar = l.map pyLowerChar := by
  induction l generalizing p with
  | nil => rfl
  | cons c rest ih =>
    unfold fixApos
    by_cases h : p = some '’' ∧ c = 'S'
    · rw [if_pos h, h.2]
      simp only [List.map_cons, ih]
      congr 1
    · rw [if_neg h]
      simp [List.map_cons, ih]

theorem fixApos_some_eq_none (c : Char) (l : List Char)
    (h : ∀ d rest, l = d :: rest → ¬ (c = '’' ∧ d = 'S')) :
    fixApos (some c) l = fixApos none l := by
  cases l with
  | nil => rfl
  | cons d rest =>
    unfold fixApos
    have hcond : ¬ (some c = some '’' ∧ d = 'S') := by
      intro ⟨ha, hb⟩
      exact h d rest rfl ⟨Option.some.inj ha, hb⟩
    rw [if_neg hcond, if_neg (by intro ⟨ha, _⟩; cases ha)]

theorem replaceFuel_eq_fixApos :
    ∀ (fuel : Nat) (l : List Char), l.length ≤ fuel →
      replaceFuel ['’', 'S'] ['’', 's'] fuel l = fixApos none l := by
  intro fuel
  induction fuel with
  | zero =>
    intro l h
    have hl : l = [] := List.eq_nil_of_length_eq_zero (Nat.le_zero.mp h)
    subst hl
    rfl
  | succ f ih =>
    intro l h
    cases l with
    | nil => rfl
    | cons c rest =>
      by_cases hm : List.isPrefixOf ['’', 'S'] (c :: rest) = true
      · obtain ⟨hc, d, r2, hrest, hd⟩ :
            c = '’' ∧ ∃ d r2, rest = d :: r2 ∧ d = 'S' := by
          cases rest with
          | nil => simp [List.isPrefixOf] at hm
          | cons d r2 =>
            simp only [List.isPrefixOf, Bool.and_eq_true, beq_iff_eq] at hm
            exact ⟨hm.1.symm, d, r2, rfl, hm.2.1.symm⟩
        subst hc hrest hd
        rw [replaceFuel, if_pos hm]
        simp only [List.length_cons] at h
        have hlen : r2.length ≤ f := by omega
        rw [ih _ (by simpa using hlen)]
        show '’' :: 's' :: fixApos none r2 = fixApos none ('’' :: 'S' :: r2)
        conv_rhs => rw [fixApos]
        rw [if_neg (by intro ⟨ha, _⟩; cases ha)]
        conv_rhs => rw [fixApos]
        rw [if_pos ⟨rfl, rfl⟩]
        rw [fixApos_some_eq_none 'S' r2 (by intro d rest h ⟨hS, _⟩; exact absurd hS (by decide))]
      · rw [replaceFuel, if_neg hm]
        simp only [List.length_cons] at h
        rw [ih _ (by omega)]
        conv_rhs => rw [fixApos]
        rw [if_neg (by intro ⟨ha, _⟩; cases ha)]
        have hno : ∀ d r2, rest = d :: r2 → ¬ (c = '’' ∧ d = 'S') := by
          intro d r2 hrest hand
          apply hm
          rw [hand.1, hrest, hand.2]
          simp [List.isPrefixOf]
        rw [fixApos_some_eq_none c rest hno]

theorem isSupportedChar_iff (c : Char) :
    isSupportedChar c = true ↔ (c.toNat ≤ 127 ∨ c.toNat = 8217) := by
  unfold isSupportedChar
  split
  · next h => simp [h]
  · next h => simp [h]

theorem pyLowerCharF_supported {c : Char} (h : isSupportedChar c = true) :
    pyLowerCharF c = [pyLowerChar c] := by
  rw [isSupportedChar_iff] at h
  unfold pyLowerCharF
  rw [if_neg (by omega)]

theorem pyTitleCharF_supported {c : Char} (h : isSupportedChar c = true) :
    pyTitleCharF c = [pyUpperChar c] := by
  rw [isSupportedChar_iff] at h
  unfold pyTitleCharF
  rw [if_neg (by omega)]

theorem isSupportedChar_pyLowerChar {c : Char} (h : isSupportedChar c = true) :
    isSupportedChar (pyLowerChar c) = true := by
  rw [isSupportedChar_iff] at h ⊢
  rw [pyLowerChar_toNat]
  split_ifs <;> omega

theorem isSupportedChar_pyUpperChar {c : Char} (h : isSupportedChar c = true) :
    isSupportedChar (pyUpperChar c) = true := by
  rw [isSupportedChar_iff] at h ⊢
  rw [pyUpperChar_toNat]
  split_ifs <;> omega

theorem pyIsCased_eq_false_iff (c : Char) :
    pyIsCased c = false ↔
      ¬ ((65 ≤ c.toNat ∧ c.toNat ≤ 90) ∨ (97 ≤ c.toNat ∧ c.toNat ≤ 122)
        ∨ c.toNat = 223 ∨ c.toNat = 304) := by
  unfold pyIsCased
  split
  · next h => simp [h]
  · next h => simp [h]

theorem pyLowerChar_id_of_not_cased {c : Char} (h : pyIsCased c = false) :
    pyLowerChar c = c := by
  rw [pyIsCased_eq_false_iff] at h
  unfold pyLowerChar
  rw [if_neg (fun hin => h (Or.inl hin))]

theorem pyUpperChar_id_of_not_cased {c : Char} (h : pyIsCased c = false) :
    pyUpperChar c = c := by
  rw [pyIsCased_eq_false_iff] at h
  unfold pyUpperChar
  rw [if_neg (fun hin => h (Or.inr (Or.inl hin)))]

theorem titleAux_eq_simple {l : List Char} (h : l.all isSupportedChar = true) (b : Bool) :
    titleAux b l = titleAuxSimple b l := by
  induction l generalizing b with
  | nil => rfl
  | cons c rest ih =>
    rw [List.all_cons, Bool.and_eq_true] at h
    obtain ⟨hc, hrest⟩ := h
    show (if b then pyLowerCharF c else pyTitleCharF c) ++ titleAux (pyIsCased c) rest = _
    by_cases hcase : pyIsCased c = true
    · rw [hcase, ih hrest]
      cases b with
      | true =>
        rw [pyLowerCharF_supported hc, titleAuxSimple_cons_true hcase]
        rfl
      | false =>
        rw [pyTitleCharF_supported hc, titleAuxSimple_cons_false hcase]
        rfl
    · have hcase2 : pyIsCased c = false := by
        revert hcase
        cases pyIsCased c <;> simp
      rw [hcase2, ih hrest]
      cases b with
      | true =>
        rw [pyLowerCharF_supported hc, pyLowerChar_id_of_not_cased hcase2,
          titleAuxSimple_cons_not_cased hcase]
        rfl
      | false =>
        rw [pyTitleCharF_supported hc, pyUpperChar_id_of_not_cased hcase2,
          titleAuxSimple_cons_not_cased hcase]
        rfl

theorem concatAll_map_lowerF {l : List Char} (h : l.all isSupportedChar = true) :
    concatAll (l.map pyLowerCharF) = l.map pyLowerChar := by
  induction l with
  | nil => rfl
  | cons c rest ih =>
    rw [List.all_cons, Bool.and_eq_true] at h
    obtain ⟨hc, hrest⟩ := h
    show pyLowerCharF c ++ concatAll (rest.map pyLowerCharF)
      = pyLowerChar c :: rest.map pyLowerChar
    rw [pyLowerCharF_supported hc, ih hrest]
    rfl

theorem pyLowerStr_supported {s : String} (h : s.toList.all isSupportedChar = true) :
    pyLowerStr s = ⟨s.toList.map pyLowerChar⟩ :=
  congrArg String.mk (concatAll_map_lowerF h)

theorem titleAuxSimple_all_supported {l : List Char}
    (h : l.all isSupportedChar = true) (b : Bool) :
    (titleAuxSimple b l).all isSupportedChar = true := by
  induction l generalizing b with
  | nil => rfl
  | cons c rest ih =>
    rw [List.all_cons, Bool.and_eq_true] at h
    obtain ⟨hc, hrest⟩ := h
    by_cases hcase : pyIsCased c = true
    · cases b with
      | true =>
        rw [titleAuxSimple_cons_true hcase, List.all_cons, Bool.and_eq_true]
        exact ⟨isSupportedChar_pyLowerChar hc, ih hrest true⟩
      | false =>
        rw [titleAuxSimple_cons_false hcase, List.all_cons, Bool.and_eq_true]
        exact ⟨isSupportedChar_pyUpperChar hc, ih hrest true⟩
    · rw [titleAuxSimple_cons_not_cased hcase, List.all_cons, Bool.and_eq_true]
      exact ⟨hc, ih hrest false⟩

theorem fixApos_all_supported {l : List Char}
    (h : l.all isSupportedChar = true) (p : Option Char) :
    (fixApos p l).all isSupportedChar = true := by
  induction l generalizing p with
  | nil => rfl
  | cons c rest ih =>
    rw [List.all_cons, Bool.and_eq_true] at h
    obtain ⟨hc, hrest⟩ := h
    unfold fixApos
    by_cases hif : p = some '’' ∧ c = 'S'
    · rw [if_pos hif, List.all_cons, Bool.and_eq_true]
      exact ⟨by decide, ih hrest _⟩
    · rw [if_neg hif, List.all_cons, Bool.and_eq_true]
      exact ⟨hc, ih hrest _⟩

theorem format_value_str_eq_fix (s : String)
    (hsup : s.toList.all isSupportedChar = true)
    (h : pyLowerStr s ≠ pyLowerStr DEFAULT_NA_VALUE) :
    format_value_str s = ⟨fixApos none (titleAuxSimple false s.toList)⟩ := by
  unfold format_value_str
  rw [if_pos h]
  show pyReplace (pyTitleStr s) "’S" "’s" = _
  unfold pyReplace pyTitleStr
  rw [titleAux_eq_simple hsup]
  congr 1
  show replaceFuel ['’', 'S'] ['’', 's'] (titleAuxSimple false s.toList).length
      (titleAuxSimple false s.toList) = fixApos none (titleAuxSimple false s.toList)
  exact replaceFuel_eq_fixApos _ _ le_rfl

theorem format_value_str_supported {s : String}
    (hsup : s.toList.all isSupportedChar = true) :
    (format_value_str s).toList.all isSupportedChar = true := by
  by_cases h : pyLowerStr s ≠ pyLowerStr DEFAULT_NA_VALUE
  · rw [format_value_str_eq_fix s hsup h]
    show (fixApos none (titleAuxSimple false s.toList)).all isSupportedChar = true
    exact fixApos_all_supported (titleAuxSimple_all_supported hsup false) none
  · unfold format_value_str
    rw [if_neg h]
    exact hsup

theorem format_value_str_length (s : String)
    (hsup : s.toList.all isSupportedChar = true) :
    (format_value_str s).length = s.length := by
  by_cases h : pyLowerStr s ≠ pyLowerStr DEFAULT_NA_VALUE
  · rw [format_value_str_eq_fix s hsup h]
    show (fixApos none (titleAuxSimple false s.toList)).length = s.length
    rw [fixApos_length, titleAuxSimple_length]
    rfl
  · unfold format_value_str
    rw [if_neg h]

theorem format_value_str_lower (s : String)
    (hsup : s.toList.all isSupportedChar = true) :
    pyLowerStr (format_value_str s) = pyLowerStr s := by
  by_cases h : pyLowerStr s ≠ pyLowerStr DEFAULT_NA_VALUE
  · rw [pyLowerStr_supported (format_value_str_supported hsup), pyLowerStr_supported hsup]
    rw [format_value_str_eq_fix s hsup h]
    show (⟨(fixApos none (titleAuxSimple false s.toList)).map pyLowerChar⟩ : String)
      = ⟨s.toList.map pyLowerChar⟩
    rw [fixApos_map_lower, titleAuxSimple_map_lower]
  · unfold format_value_str
    rw [if_neg h]

theorem format_value_str_idem_aux (s : String)
    (hsup : s.toList.all isSupportedChar = true)
    (h : pyLowerStr s ≠ pyLowerStr DEFAULT_NA_VALUE) :
    format_value_str (format_value_str s) = format_value_str s := by
  have hsup2 : (format_value_str s).toList.all isSupportedChar = true :=
    format_value_str_supported hsup
  have h2 : pyLowerStr (format_value_str s) ≠ pyLowerStr DEFAULT_NA_VALUE := by
    rw [format_value_str_lower s hsup]
    exact h
  rw [format_value_str_eq_fix _ hsup2 h2]
  conv_rhs => rw [format_value_str_eq_fix s hsup h]
  congr 1
  rw [format_value_str_eq_fix s hsup h]
  show fixApos none (titleAuxSimple false (fixApos none (titleAuxSimple false s.toList)))
      = fixApos none (titleAuxSimple false s.toList)
  rw [titleAuxSimple_congr (fixApos_map_lower _ _) false, titleAuxSimple_idem]

theorem isPrefixOf_append_self (P t : List Char) : P.isPrefixOf (P ++ t) = true := by
  rw [List.isPrefixOf_iff_prefix]
  exact List.prefix_append P t

theorem replaceFuel_nil (pat new : List Char) (fuel : Nat) :
    replaceFuel pat new fuel [] = [] := by
  cases fuel <;> rfl

theorem replaceFuel_skip (p : Char) (pat new : List Char) :
    ∀ (a t : List Char) (fuel : Nat), p ∉ a → a.length ≤ fuel →
      replaceFuel (p :: pat) new fuel (a ++ t) =
        a ++ replaceFuel (p :: pat) new (fuel - a.length) t := by
  intro a
  induction a with
  | nil => intro t fuel _ _; simp
  | cons c a2 ih =>
    intro t fuel hmem hlen
    cases fuel with
    | zero => simp at hlen
    | succ f =>
      have hne : ¬ (p == c) = true := by
        simp only [beq_iff_eq]
        intro hpc
        exact hmem (hpc ▸ List.mem_cons_self c a2)
      have hpre : ¬ List.isPrefixOf (p :: pat) (c :: (a2 ++ t)) = true := by
        simp only [List.isPrefixOf, Bool.and_eq_true]
        intro hand
        exact hne hand.1
      show replaceFuel (p :: pat) new (f + 1) (c :: (a2 ++ t)) = _
      rw [replaceFuel, if_neg hpre]
      have hm2 : p ∉ a2 := fun hx => hmem (List.mem_cons_of_mem c hx)
      rw [ih t f hm2 (by simpa using hlen)]
      simp [Nat.succ_sub_succ]

theorem replaceFuel_head_match (p : Char) (pat new t : List Char) (f : Nat) :
    replaceFuel (p :: pat) new (f + 1) ((p :: pat) ++ t) =
      new ++ replaceFuel (p :: pat) new f t := by
  show replaceFuel (p :: pat) new (f + 1) (p :: (pat ++ t)) = _
  rw [replaceFuel, if_pos (show (p :: pat).isPrefixOf (p :: (pat ++ t)) = true from
    isPrefixOf_append_self (p :: pat) t)]
  congr 2
  show List.drop pat.length (pat ++ t) = t
  exact List.drop_left pat t

theorem replaceFuel_no_occ (p : Char) (pat new c : List Char) (fuel : Nat)
    (hc : p ∉ c) (hlen : c.length ≤ fuel) :
    replaceFuel (p :: pat) new fuel c = c := by
  have h := replaceFuel_skip p pat new c [] fuel hc hlen
  rw [List.append_nil] at h
  rw [h, replaceFuel_nil, List.append_nil]

theorem replaceFuel_two_occ (p : Char) (pat new a b c : List Char) (fuel : Nat)
    (ha : p ∉ a) (hb : p ∉ b) (hc : p ∉ c)
    (hfuel : (a ++ (p :: pat) ++ b ++ (p :: pat) ++ c).length ≤ fuel) :
    replaceFuel (p :: pat) new fuel (a ++ (p :: pat) ++ b ++ (p :: pat) ++ c)
      = a ++ new ++ b ++ new ++ c := by
  simp only [List.length_append, List.length_cons] at hfuel
  simp only [List.append_assoc]
  rw [replaceFuel_skip p pat new a _ fuel ha (by omega)]
  obtain ⟨f1, hf1⟩ : ∃ k, fuel - a.length = k + 1 := ⟨fuel - a.length - 1, by omega⟩
  rw [hf1, replaceFuel_head_match]
  rw [replaceFuel_skip p pat new b _ f1 hb (by omega)]
  obtain ⟨f2, hf2⟩ : ∃ k, f1 - b.length = k + 1 := ⟨f1 - b.length - 1, by omega⟩
  rw [hf2, replaceFuel_head_match]
  rw [replaceFuel_no_occ p pat new c f2 hc (by omega)]

theorem strContains_of_split (s sub : String) (x y : List Char)
    (h : s.toList = x ++ (sub.toList ++ y)) :
    strContains s sub = true := by
  unfold strContains
  rw [List.any_eq_true]
  refine ⟨sub.toList ++ y, ?_, isPrefixOf_append_self _ _⟩
  rw [List.mem_tails, h]
  exact List.suffix_append x (sub.toList ++ y)

theorem create_updated_html_some (parse : String → Option JsonVal)
    (dataContent : Option String) (template frag : String)
    (hfrag : create_str_for_template parse dataContent = some frag) :
    create_updated_html parse dataContent (some template)
      = some (if strContains template HTML_PLACEHOLDER_TEXT then
                pyReplace template HTML_PLACEHOLDER_TEXT frag
              else "") := by
  unfold create_updated_html
  rw [hfrag]

/-- Field-type restrictions of the RawRecord data model (§3): a present
value under this key is a string. -/
def strOnly : Option JsonVal → Bool
  | some (.str _) => true
  | some _ => false
  | none => true

/-- Field-type restriction of the RawRecord data model (§3) for
`locations`: when present as a JSON list, its elements are strings. -/
def strListOnly : Option JsonVal → Bool
  | some (.list xs) => xs.all (fun v => match v with | .str _ => true | _ => false)
  | _ => true

/-- Characteristics mapping of the demonstration record. -/
def demoChars : List (String × JsonVal) :=
  [("diet", .str "omnivore"), ("type", .str "mammal")]

/-- Demonstration record with all four source fields populated. -/
def demoRec : List (String × JsonVal) :=
  [("name", .str "fox"), ("locations", .list [.str "forest"]),
   ("characteristics", .dict demoChars)]

/-- Demonstration record lacking the `characteristics` key. -/
def noCharsRec : List (String × JsonVal) :=
  [("name", .str "fox")]

/-- The string `darwin's fox` with a straight ASCII apostrophe. -/
def darwinAscii : String := "darwin" ++ String.mk [asciiApos] ++ "s fox"

/-- A `json.load` behaviour that parses any content to the empty array. -/
def emptyListParse : String → Option JsonVal := fun _ => some (.list [])

/-- A `json.load` behaviour that fails on any content. -/
def failParse : String → Option JsonVal := fun _ => none

/-- A template holding two occurrences of the placeholder. -/
def twoPhTemplate : String := "A__REPLACE_ANIMALS_INFO__B__REPLACE_ANIMALS_INFO__C"

/-- Claim C1, counterexample: on the ASCII-apostrophe input
`"darwin's fox"`, `format_value` does not return `"Darwin’s Fox"` —
the `"’S"` correction looks for U+2019 and the ASCII apostrophe does not
match it. -/
theorem C1_counterexample : format_value_str darwinAscii ≠ "Darwin’s Fox" := by
  decide

/-- Claim C1, amended: the ASCII-apostrophe input `"darwin's fox"`
title-cases to `"Darwin'S Fox"` (uppercase S, apostrophe unchanged) and
no correction applies; the corrected lowercase `s` is produced exactly
for the U+2019 input `"darwin’s fox"`, which maps to `"Darwin’s Fox"`. -/
theorem C1_amended :
    format_value_str darwinAscii = "Darwin" ++ String.mk [asciiApos, 'S'] ++ " Fox" ∧
    format_value_str "darwin’s fox" = "Darwin’s Fox" :=
  ⟨by decide, by decide⟩

/-- Claim C2, counterexample: with a template holding two placeholder
occurrences (and an empty record set, so the fragment string is empty),
`create_updated_html` does not leave the second occurrence unchanged —
Python `str.replace` replaces every occurrence, so the result is
`"ABC"`, not `"AB__REPLACE_ANIMALS_INFO__C"`. -/
theorem C2_counterexample :
    create_updated_html emptyListParse (some "[]") (some twoPhTemplate)
        ≠ some ("AB" ++ HTML_PLACEHOLDER_TEXT ++ "C") ∧
    create_updated_html emptyListParse (some "[]") (some twoPhTemplate)
        = some "ABC" :=
  ⟨by decide, by decide⟩

/-- Claim C2, amended: `create_updated_html` substitutes the joined
fragment string for every left-to-right non-overlapping occurrence of
the placeholder, not only the first; in a template of the form
`a ++ placeholder ++ b ++ placeholder ++ c` where the segments do not
contain the placeholder's characters, both occurrences are replaced and
all surrounding text is preserved. -/
theorem C2_amended (parse : String → Option JsonVal) (dataContent : Option String)
    (frag : String) (a b c : List Char)
    (ha : '_' ∉ a) (hb : '_' ∉ b) (hc : '_' ∉ c)
    (hfrag : create_str_for_template parse dataContent = some frag) :
    create_updated_html parse dataContent
        (some ⟨a ++ HTML_PLACEHOLDER_TEXT.toList ++ b ++ HTML_PLACEHOLDER_TEXT.toList ++ c⟩)
      = some ⟨a ++ frag.toList ++ b ++ frag.toList ++ c⟩ := by
  rw [create_updated_html_some parse dataContent _ frag hfrag]
  have hsplit : (⟨a ++ HTML_PLACEHOLDER_TEXT.toList ++ b ++ HTML_PLACEHOLDER_TEXT.toList ++ c⟩ :
      String).toList
      = a ++ (HTML_PLACEHOLDER_TEXT.toList ++ (b ++ HTML_PLACEHOLDER_TEXT.toList ++ c)) := by
    show a ++ HTML_PLACEHOLDER_TEXT.toList ++ b ++ HTML_PLACEHOLDER_TEXT.toList ++ c = _
    simp [List.append_assoc]
  rw [if_pos (strContains_of_split _ _ a (b ++ HTML_PLACEHOLDER_TEXT.toList ++ c) hsplit)]
  unfold pyReplace
  congr 2
  show replaceFuel HTML_PLACEHOLDER_TEXT.toList frag.toList
      (a ++ HTML_PLACEHOLDER_TEXT.toList ++ b ++ HTML_PLACEHOLDER_TEXT.toList ++ c).length
      (a ++ HTML_PLACEHOLDER_TEXT.toList ++ b ++ HTML_PLACEHOLDER_TEXT.toList ++ c)
      = a ++ frag.toList ++ b ++ frag.toList ++ c
  have hph : HTML_PLACEHOLDER_TEXT.toList = '_' :: "_REPLACE_ANIMALS_INFO__".toList := rfl
  rw [hph]
  exact replaceFuel_two_occ '_' _ frag.toList a b c _ ha hb hc le_rfl

/-- Witness for C2_amended at a concrete two-occurrence template with an
empty record set. -/
theorem C2_amended_witness :
    ('_' ∉ ['X']) ∧ ('_' ∉ ['Y']) ∧ ('_' ∉ ['Z']) ∧
    create_str_for_template emptyListParse (some "[]") = some "" ∧
    create_updated_html emptyListParse (some "[]")
        (some ⟨['X'] ++ HTML_PLACEHOLDER_TEXT.toList ++ ['Y'] ++
          HTML_PLACEHOLDER_TEXT.toList ++ ['Z']⟩)
      = some ⟨['X'] ++ "".toList ++ ['Y'] ++ "".toList ++ ['Z']⟩ :=
  ⟨by decide, by decide, by decide, by rfl,
    C2_amended emptyListParse (some "[]") "" ['X'] ['Y'] ['Z']
      (by decide) (by decide) (by decide) (by rfl)⟩

/-- Claim C3: when the loaded template does not contain the placeholder
token (and the fragment string is built without an exception),
`create_updated_html` returns the empty string rather than raising. -/
theorem C3_missing_placeholder (parse : String → Option JsonVal)
    (dataContent : Option String) (template frag : String)
    (hnoph : strContains template HTML_PLACEHOLDER_TEXT = false)
    (hfrag : create_str_for_template parse dataContent = some frag) :
    create_updated_html parse dataContent (some template) = some "" := by
  rw [create_updated_html_some parse dataContent template frag hfrag]
  rw [if_neg (by simp [hnoph])]

/-- Witness for C3_missing_placeholder at a concrete placeholder-free
template. -/
theorem C3_witness :
    strContains "<html>no placeholder</html>" HTML_PLACEHOLDER_TEXT = false ∧
    create_str_for_template emptyListParse (some "[]") = some "" ∧
    create_updated_html emptyListParse (some "[]")
      (some "<html>no placeholder</html>") = some "" :=
  ⟨by decide, by rfl,
    C3_missing_placeholder emptyListParse (some "[]") _ "" (by decide) (by rfl)⟩

/-- Claim C4, counterexample: the boolean result reported by
`persist_updated_html` for empty input equals the boolean it reports for
a write failure (both `False`), so the skipped outcome is not reported
distinctly from a failure. -/
theorem C4_counterexample :
    (persist_updated_html "" true).ret = (persist_updated_html "x" false).ret ∧
    (persist_updated_html "x" false).ret = false :=
  ⟨by decide, by decide⟩

/-- Claim C4, amended: for empty input `persist_updated_html` performs
no file write and prints a benign informational diagnostic distinct from
the error and success diagnostics, but it returns `False` — the same
boolean it returns for a write failure — so the skipped outcome is
distinguishable from a failure only by the printed message, not by the
returned value. -/
theorem C4_amended (writeOk : Bool) :
    (persist_updated_html "" writeOk).wrote = none ∧
    (persist_updated_html "" writeOk).printed = [NO_CONTENT_MSG] ∧
    (persist_updated_html "" writeOk).ret = false ∧
    NO_CONTENT_MSG ≠ WRITE_ERROR_MSG ∧ NO_CONTENT_MSG ≠ SAVE_SUCCESS_MSG :=
  ⟨rfl, rfl, rfl, by decide, by decide⟩

/-- Claim C5: when the data file is absent, or its content fails to
parse, `load_json` returns the no-data result (`None`, never an
exception — both handlers catch), and `return_list_for_template` maps
that result to the empty list. -/
theorem C5_loader_no_data (parse : String → Option JsonVal) (fileContent : Option String)
    (h : fileContent = none ∨ ∃ text, fileContent = some text ∧ parse text = none) :
    load_json parse fileContent = none ∧
    return_list_for_template parse fileContent = some [] := by
  obtain rfl | ⟨text, rfl, hp⟩ := h
  · exact ⟨rfl, rfl⟩
  · refine ⟨hp, ?_⟩
    unfold return_list_for_template
    rw [show load_json parse (some text) = none from hp]

/-- Witness for C5_loader_no_data: a present file whose content fails to
parse. -/
theorem C5_witness :
    ((some "not json" : Option String) = none ∨
      ∃ text, (some "not json" : Option String) = some text ∧ failParse text = none) ∧
    (load_json failParse (some "not json") = none ∧
      return_list_for_template failParse (some "not json") = some []) :=
  ⟨Or.inr ⟨"not json", rfl, rfl⟩,
    C5_loader_no_data failParse (some "not json") (Or.inr ⟨"not json", rfl, rfl⟩)⟩

/-- Claim C6: for every raw record of the RawRecord shape (present
fields are strings) that carries a characteristics mapping, the
normalizer succeeds and each of the four fields of the resulting record
is a string — the result of `format_value` on a string, which covers
both the formatted display strings and the sentinel default. -/
theorem C6_fields_are_strings (d chars : List (String × JsonVal))
    (hchars : dictGet d "characteristics" = some (.dict chars))
    (hname : strOnly (dictGet d "name") = true)
    (hlocs : strListOnly (dictGet d "locations") = true)
    (hdiet : strOnly (dictGet chars "diet") = true)
    (htype : strOnly (dictGet chars "type") = true) :
    ∃ r, create_template_dict d = some r ∧
      (∃ s, r.name = .str (format_value_str s)) ∧
      (∃ s, r.diet = .str (format_value_str s)) ∧
      (∃ s, r.location = .str (format_value_str s)) ∧
      (∃ s, r.type = .str (format_value_str s)) := by
  simp only [create_template_dict, hchars]
  refine ⟨_, rfl, ?_, ?_, ?_, ?_⟩
  · cases hn : dictGet d "name" with
    | none => exact ⟨"N/A", rfl⟩
    | some v =>
      rw [hn] at hname
      cases v <;> simp [strOnly] at hname
      rename_i s
      exact ⟨s, rfl⟩
  · cases hn : dictGet chars "diet" with
    | none => exact ⟨"N/A", rfl⟩
    | some v =>
      rw [hn] at hdiet
      cases v <;> simp [strOnly] at hdiet
      rename_i s
      exact ⟨s, rfl⟩
  · cases hn : dictGet d "locations" with
    | none => exact ⟨"N/A", rfl⟩
    | some v =>
      rw [hn] at hlocs
      cases v with
      | list xs =>
        cases xs with
        | nil => exact ⟨"N/A", rfl⟩
        | cons x xt =>
          simp only [strListOnly, List.all_cons, Bool.and_eq_true] at hlocs
          obtain ⟨hx, _⟩ := hlocs
          cases x <;> simp at hx
          rename_i s
          exact ⟨s, rfl⟩
      | null => exact ⟨"N/A", rfl⟩
      | bool b => exact ⟨"N/A", rfl⟩
      | num n => exact ⟨"N/A", rfl⟩
      | str s => exact ⟨"N/A", rfl⟩
      | dict kvs => exact ⟨"N/A", rfl⟩
  · cases hn : dictGet chars "type" with
    | none => exact ⟨"N/A", rfl⟩
    | some v =>
      rw [hn] at htype
      cases v <;> simp [strOnly] at htype
      rename_i s
      exact ⟨s, rfl⟩

/-- Witness for C6_fields_are_strings at a fully populated record. -/
theorem C6_witness :
    dictGet demoRec "characteristics" = some (.dict demoChars) ∧
    strOnly (dictGet demoRec "name") = true ∧
    (∃ r, create_template_dict demoRec = some r ∧
      (∃ s, r.name = .str (format_value_str s)) ∧
      (∃ s, r.diet = .str (format_value_str s)) ∧
      (∃ s, r.location = .str (format_value_str s)) ∧
      (∃ s, r.type = .str (format_value_str s))) :=
  ⟨rfl, rfl, C6_fields_are_strings demoRec demoChars rfl rfl rfl rfl rfl⟩

/-- Claim C7: under the precondition that the record carries a
characteristics mapping, `create_template_dict` produces exactly the
record whose fields follow the spec's extraction rules — `name`
defaulting to the sentinel when absent, `location` taken from the head
of a present non-empty `locations` list and the sentinel otherwise, and
`diet`/`type` read from the characteristics mapping with sentinel
defaults — each passed through `format_value`. -/
theorem C7_extraction_rules (d chars : List (String × JsonVal))
    (hchars : dictGet d "characteristics" = some (.dict chars)) :
    create_template_dict d = some {
      name := format_value (spec_name d)
      diet := format_value (spec_diet chars)
      location := format_value (spec_location d)
      type := format_value (spec_type chars) } := by
  simp only [create_template_dict, hchars, spec_name, spec_diet, spec_type, spec_location]
  cases hl : dictGet d "locations" with
  | none => rfl
  | some v =>
    cases v with
    | list xs =>
      cases xs with
      | nil => rfl
      | cons x xt => rfl
    | null => rfl
    | bool b => rfl
    | num n => rfl
    | str s => rfl
    | dict kvs => rfl

/-- Witness for C7_extraction_rules at a fully populated record. -/
theorem C7_witness :
    dictGet demoRec "characteristics" = some (.dict demoChars) ∧
    create_template_dict demoRec = some {
      name := format_value (spec_name demoRec)
      diet := format_value (spec_diet demoChars)
      location := format_value (spec_location demoRec)
      type := format_value (spec_type demoChars) } :=
  ⟨rfl, C7_extraction_rules demoRec demoChars rfl⟩

/-- Claim C9: presence of the characteristics mapping is a genuine
precondition of `create_template_dict` — a record lacking the
`characteristics` key makes the unchecked subscript raise (the `none`
outcome), with no sentinel default, while any record carrying a
characteristics mapping makes the normalizer totally succeed. -/
theorem C9_characteristics_precondition (d : List (String × JsonVal)) :
    (dictGet d "characteristics" = none → create_template_dict d = none) ∧
    (∀ chars, dictGet d "characteristics" = some (.dict chars) →
      (create_template_dict d).isSome = true) := by
  constructor
  · intro h
    simp only [create_template_dict, h]
  · intro chars h
    simp only [create_template_dict, h, Option.isSome_some]

/-- Witness for C9_characteristics_precondition: a record without
`characteristics` raises; a record with it succeeds. -/
theorem C9_witness :
    dictGet noCharsRec "characteristics" = none ∧
    create_template_dict noCharsRec = none ∧
    dictGet demoRec "characteristics" = some (.dict demoChars) ∧
    (create_template_dict demoRec).isSome = true :=
  ⟨rfl, (C9_characteristics_precondition noCharsRec).1 rfl, rfl,
    (C9_characteristics_precondition demoRec).2 demoChars rfl⟩

/-- Claim C8, counterexample: `format_value` is not idempotent on every
non-sentinel string.  On `"AİB"` the dotted capital I lowercases to the
two characters `i` + U+0307, giving `"Ai̇b"`; reformatting that output
meets the uncased combining dot U+0307, which starts a new word, so the
final `b` is re-uppercased: `"Ai̇B"` ≠ `"Ai̇b"`. -/
theorem C8_counterexample :
    pyLowerStr "AİB" ≠ "n/a" ∧
    format_value_str "AİB" = "Ai" ++ String.mk [Char.ofNat 775] ++ "b" ∧
    format_value_str (format_value_str "AİB")
      = "Ai" ++ String.mk [Char.ofNat 775] ++ "B" ∧
    format_value_str (format_value_str "AİB") ≠ format_value_str "AİB" :=
  ⟨by decide, by decide, by decide, by decide⟩

/-- Claim C8, amended: `format_value` is idempotent on non-sentinel
strings over the alphabet the program's data manipulates (ASCII plus
U+2019), where every case mapping is single-character: for every such
string whose lowercase form is not `"n/a"`, formatting twice equals
formatting once.  Outside that alphabet idempotence can fail (see the
counterexample). -/
theorem C8_format_value_idempotent (s : String)
    (hsup : s.toList.all isSupportedChar = true) (h : pyLowerStr s ≠ "n/a") :
    format_value_str (format_value_str s) = format_value_str s :=
  format_value_str_idem_aux s hsup h

/-- Witness for C8_format_value_idempotent at `"darwin’s fox"`. -/
theorem C8_witness :
    ("darwin’s fox".toList.all isSupportedChar = true) ∧
    pyLowerStr "darwin’s fox" ≠ "n/a" ∧
    format_value_str (format_value_str "darwin’s fox")
      = format_value_str "darwin’s fox" :=
  ⟨by decide, by decide, C8_format_value_idempotent "darwin’s fox" (by decide) (by decide)⟩

/-- Claim C10, counterexample: `format_value` does not merely change
letter case on every string.  Python's full titlecase mapping sends the
single character ß (U+00DF) to the two characters `"Ss"`, so the output
of `format_value` on `"ß"` has length 2 ≠ 1 and its lowercase form
`"ss"` differs from the input's lowercase form `"ß"`. -/
theorem C10_counterexample :
    format_value_str "ß" = "Ss" ∧
    ("ß" : String).length = 1 ∧
    (format_value_str "ß").length ≠ ("ß" : String).length ∧
    pyLowerStr (format_value_str "ß") ≠ pyLowerStr "ß" :=
  ⟨by decide, by decide, by decide, by decide⟩

/-- Claim C10, amended: on strings over the alphabet the program's data
manipulates (ASCII plus U+2019), where every Python case mapping is
single-character, `format_value` only changes letter case — the output
has the same length and the same lowercase form as the input, and in
particular an input is sentinel-valued (case-insensitively `"n/a"`)
exactly when the output is.  Outside that alphabet multi-character
mappings can change length and lowercase form (see the
counterexample). -/
theorem C10_case_change_only (s : String)
    (hsup : s.toList.all isSupportedChar = true) :
    (format_value_str s).length = s.length ∧
    pyLowerStr (format_value_str s) = pyLowerStr s ∧
    (pyLowerStr (format_value_str s) = "n/a" ↔ pyLowerStr s = "n/a") :=
  ⟨format_value_str_length s hsup, format_value_str_lower s hsup,
    by rw [format_value_str_lower s hsup]⟩

/-- Witness for C10_case_change_only at `"darwin’s fox"`. -/
theorem C10_witness :
    ("darwin’s fox".toList.all isSupportedChar = true) ∧
    ((format_value_str "darwin’s fox").length = "darwin’s fox".length ∧
      pyLowerStr (format_value_str "darwin’s fox") = pyLowerStr "darwin’s fox" ∧
      (pyLowerStr (format_value_str "darwin’s fox") = "n/a" ↔
        pyLowerStr "darwin’s fox" = "n/a")) :=
  ⟨by decide, C10_case_change_only "darwin’s fox" (by decide)⟩
